import Mathlib

/-!
Verification of dockerps (src/main.go), an interactive terminal dashboard over
the docker CLI. The source file carries two near-duplicate revisions of the
program; the second revision (the one with status messages, the loading flag
and the start/stop/delete key handlers, lines 406-957) is the one the claims
reference, and it is the one embedded here.

Modelling conventions:
* Go strings are modelled as lists of characters ( abbrev Str ); Go's byte
  length is the list length (the program's data is ASCII except the em-dash
  placeholder, which is never truncated at the widths the program uses).
* Go int is modelled as Int. The one division in the program divides a
  quantity that is ≥ 40 by 3, where Go's truncating division and Lean's
  division agree.
* A Go runtime panic (out-of-range slice index) is modelled as none : an
  Option-valued function returns none exactly where the Go code panics.
* The third-party terminal widgets (bubbles table and textinput) and the
  lipgloss styling are external collaborators per the spec; the parts of
  their state the program reads or writes (columns, rows, cursor, height,
  the filter text) are carried in the model, and their own key handling is
  modelled from the spec where noted.
-/

/-- Go strings, as lists of characters. -/
abbrev Str := List Char

/-- A Go string literal. -/
def str (s : String) : Str := s.data

/-- strings.ToLower, restricted to ASCII case mapping. -/
def toLowerStr (s : Str) : Str := s.map Char.toLower

/-- strings.ToUpper, restricted to ASCII case mapping. -/
def toUpperStr (s : Str) : Str := s.map Char.toUpper

/-- strings.TrimPrefix: drop pre when it is a prefix of s, else s unchanged. -/
def trimPrefixGo (s pre : Str) : Str :=
  if pre.isPrefixOf s then s.drop pre.length else s

/-- strings.Contains: does s contain sub as a (contiguous) substring? -/
def strContains (s sub : Str) : Bool :=
  match s with
  | [] => sub.isEmpty
  | c :: t => sub.isPrefixOf (c :: t) || strContains t sub

/-- The scan of strings.ReplaceAll, structurally recursive on a fuel bound on
the number of characters still to be scanned (the fuel is only a totality
device: with fuel ≥ length s it never runs out, since every step consumes at
least one character). -/
def replaceAllFuel : Nat → Str → Str → Str → Str
  | 0, s, _, _ => s
  | fuel + 1, s, old, new =>
    match s with
    | [] => []
    | c :: t =>
      if old.isPrefixOf (c :: t) then
        new ++ replaceAllFuel fuel (t.drop (old.length - 1)) old new
      else c :: replaceAllFuel fuel t old new

/-- strings.ReplaceAll(s, old, new) for a nonempty pattern old: replaces the
non-overlapping leftmost occurrences. (Go treats an empty old by interspersing
new between characters; the program only calls this with old = "0.0.0.0:",
which is nonempty, and for empty old this model consumes the string.) -/
def replaceAll (s old new : Str) : Str := replaceAllFuel s.length s old new

/-- The ASCII white-space characters trimmed by strings.TrimSpace. -/
def goIsSpace (c : Char) : Bool :=
  c = ' ' || c = '\t' || c = '\n' || c = Char.ofNat 11 || c = Char.ofNat 12 || c = '\r'

/-- strings.TrimSpace: trim leading and trailing white space. -/
def trimSpace (s : Str) : Str :=
  ((s.dropWhile goIsSpace).reverse.dropWhile goIsSpace).reverse

/-- strings.Split(s, "\n"): the substrings between newline separators,
empty pieces kept. -/
def splitNl : Str → List Str
  | [] => [[]]
  | c :: t =>
    if c = '\n' then [] :: splitNl t
    else
      match splitNl t with
      | h :: r => (c :: h) :: r
      | [] => [[c]]

/-- The Go slice expression s[:12] used on container IDs: panics (none) when
the string is shorter than 12. -/
def idPrefix12 (s : Str) : Option Str :=
  if 12 ≤ s.length then some (s.take 12) else none

/-- truncate (src/main.go:559-564): s unchanged when len(s) <= max, else the
first max-3 characters and "...". The Go slice s[:max-3] panics when
max - 3 < 0, modelled as none. -/
def truncate (s : Str) (max : Int) : Option Str :=
  if (s.length : Int) ≤ max then some s
  else if 3 ≤ max then some (s.take (max - 3).toNat ++ str "...")
  else none

/-- The total value truncate produces when it does not panic. -/
def truncSpec (s : Str) (max : Int) : Str :=
  if (s.length : Int) ≤ max then s else s.take (max - 3).toNat ++ str "..."

/-- One decoded docker ps JSON record (struct Container, src/main.go:453-462). -/
structure Container where
  id : Str
  image : Str
  command : Str
  created : Str
  status : Str
  ports : Str
  names : Str
  state : Str
deriving DecidableEq

/-- One table column (bubbles table.Column): a title and a width. -/
structure Column where
  title : Str
  width : Int
deriving DecidableEq

/-- Styling (lipgloss Style.Render) is an external presentation collaborator;
it decorates but does not change the text content, so it is modelled as the
identity on the text. -/
def render (s : Str) : Str := s

/-- formatStatus (src/main.go:566-585): the fixed state-to-label table, any
other state upper-cased. -/
def formatStatus (state : Str) : Str :=
  if state = str "running" then render (str "RUNNING")
  else if state = str "exited" then render (str "STOPPED")
  else if state = str "paused" then render (str "PAUSED")
  else if state = str "restarting" then render (str "RESTART")
  else if state = str "removing" then render (str "REMOVING")
  else if state = str "dead" then render (str "DEAD")
  else if state = str "created" then render (str "CREATED")
  else toUpperStr state

/-- The placeholder shown for an empty ports string. -/
def dash : Str := str "—"

/-- formatPorts (src/main.go:609-614): the dash for an empty ports string,
else the ports string with every "0.0.0.0:" occurrence removed, truncated
to 25. -/
def formatPorts (ports : Str) : Option Str :=
  if ports = [] then some dash
  else truncate (replaceAll ports (str "0.0.0.0:") []) 25

/-- The predicate of filterContainers: some lower-cased field (name with the
leading "/" stripped, image, state, id, ports) contains the lower-cased
filter text f. -/
def matchesFilter (c : Container) (f : Str) : Bool :=
  strContains (toLowerStr (trimPrefixGo c.names (str "/"))) f ||
  strContains (toLowerStr c.image) f ||
  strContains (toLowerStr c.state) f ||
  strContains (toLowerStr c.id) f ||
  strContains (toLowerStr c.ports) f

/-- filterContainers (src/main.go:642-664): identity for the empty filter,
else the loop appending each matching record. -/
def filterContainers (containers : List Container) (filter : Str) : List Container :=
  if filter = [] then containers
  else
    containers.foldl
      (fun acc c => if matchesFilter c (toLowerStr filter) then acc ++ [c] else acc) []

/-- containerToRow (src/main.go:616-640): project one record to its five
display cells, using the current column widths, or the fallback widths
14/25/30/25 when fewer than five columns are configured. none models a
truncate panic. -/
def containerToRow (cols : List Column) (c : Container) : Option (List Str) :=
  let name := trimPrefixGo c.names (str "/")
  match cols with
  | c0 :: c1 :: c2 :: _ :: c4 :: _ =>
    (truncate c.id c0.width).bind fun t0 =>
    (truncate name c1.width).bind fun t1 =>
    (truncate c.image c2.width).bind fun t2 =>
    (formatPorts c.ports).bind fun p =>
    (truncate p c4.width).map fun t4 =>
    [t0, t1, t2, formatStatus c.state, t4]
  | _ =>
    (truncate c.id 14).bind fun t0 =>
    (truncate name 25).bind fun t1 =>
    (truncate c.image 30).bind fun t2 =>
    (formatPorts c.ports).bind fun p =>
    (truncate p 25).map fun t4 =>
    [t0, t1, t2, formatStatus c.state, t4]

/-- The width the ports cell is truncated to: the fifth column's width, or 25
in the fallback branch of containerToRow. -/
def portsColWidth (cols : List Column) : Int :=
  match cols with
  | _ :: _ :: _ :: _ :: c4 :: _ => c4.width
  | _ => 25

/-- The program's own max helper (src/main.go:732-737). -/
def goMax (a b : Int) : Int := if a > b then a else b

/-- updateTableSize clamps the terminal width to at least 80 before layout. -/
def clampWidth (w : Int) : Int := if w < 80 then 80 else w

/-- The fixed ID column width (src/main.go:703). -/
def idWidth : Int := 14

/-- The fixed STATUS column width (src/main.go:704). -/
def statusWidth : Int := 16

/-- The width left for the flexible columns: total minus the fixed columns
minus the 10 units reserved for padding and borders (src/main.go:707-708). -/
def remainingWidth (w : Int) : Int := clampWidth w - (idWidth + statusWidth + 10)

/-- NAME column width (src/main.go:711). -/
def nameWidth (w : Int) : Int := goMax 20 (remainingWidth w / 3)

/-- IMAGE column width (src/main.go:712). -/
def imageWidth (w : Int) : Int := goMax 25 (remainingWidth w / 3)

/-- PORTS column width (src/main.go:713). -/
def portsWidth (w : Int) : Int :=
  goMax 20 (remainingWidth w - nameWidth w - imageWidth w)

/-- The columns updateTableSize installs for a terminal width w
(src/main.go:715-721). -/
def layoutColumns (w : Int) : List Column :=
  [⟨str "ID", idWidth⟩, ⟨str "NAME", nameWidth w⟩, ⟨str "IMAGE", imageWidth w⟩,
   ⟨str "STATUS", statusWidth⟩, ⟨str "PORTS", portsWidth w⟩]

/-- The commands (tea.Cmd) the update function can dispatch. tickThenLoad s
models tea.Tick(s seconds, then loadContainers); focus models the text
input's Focus command; batch2 models tea.Batch of the two commands the
program ever batches together. -/
inductive Cmd where
  | nothing
  | quit
  | load
  | focus
  | start (id : Str)
  | stop (id : Str)
  | delete (id : Str)
  | tickThenLoad (seconds : Nat)
  | batch2 (c1 c2 : Cmd)
deriving DecidableEq

/-- The messages (tea.Msg) the update function handles. -/
inductive Msg where
  | windowSize (w h : Int)
  | key (k : Str)
  | containersLoaded (cs : List Container)
  | actionResult (success : Bool) (message : Str)
  | errMsg (e : Str)
deriving DecidableEq

/-- The parts of the bubbles table widget the program reads or writes:
columns, rows, the cursor and the height. The cursor is a Go int that the
widget keeps nonnegative, modelled as Nat. -/
structure TableState where
  columns : List Column
  rows : List (List Str)
  cursor : Nat
  height : Int
deriving DecidableEq

/-- The parts of the bubbles textinput widget the program reads or writes:
its value and focus. -/
structure FilterInput where
  value : Str
  focused : Bool
deriving DecidableEq

/-- The model (struct model, src/main.go:464-474). The error is carried as
its message text. -/
structure Model where
  table : TableState
  containers : List Container
  filter : FilterInput
  filtering : Bool
  err : Option Str
  width : Int
  height : Int
  statusMsg : Str
  loading : Bool
deriving DecidableEq

/-- Modelled from the spec: the third-party table widget's own key handling
("↑/↓: navigate") for the keys the update function forwards to it — the
cursor moves within the row range, other keys leave the table unchanged. -/
def tableStep (t : TableState) (k : Str) : TableState :=
  if k = str "up" then {t with cursor := t.cursor - 1}
  else if k = str "down" then
    if t.cursor + 1 < t.rows.length then {t with cursor := t.cursor + 1} else t
  else t

/-- Modelled from the spec: the third-party text input widget's own key
handling in filtering mode ("any other character → append/edit filter
text"), with the configured character limit of 50. -/
def filterInputStep (fi : FilterInput) (k : Str) : FilterInput :=
  if k = str "backspace" then {fi with value := fi.value.dropLast}
  else
    match k with
    | [c] => if fi.value.length < 50 then {fi with value := fi.value ++ [c]} else fi
    | _ => fi

/-- getSelectedContainer (src/main.go:666-682): index the filtered list at
the table cursor; nil (none) when there are no records, no filtered records,
or the cursor is out of range. -/
def getSelectedContainer (m : Model) : Option Container :=
  if m.containers = [] then none
  else
    let filtered := filterContainers m.containers m.filter.value
    if filtered = [] then none
    else if filtered.length ≤ m.table.cursor then none
    else filtered.get? m.table.cursor

/-- updateTable (src/main.go:684-694): reproject the filtered records into
table rows. none models a truncate panic during projection. -/
def updateTable (m : Model) : Option Model :=
  let filtered := filterContainers m.containers m.filter.value
  (filtered.mapM (containerToRow m.table.columns)).map fun rows =>
    {m with table := {m.table with rows := rows}}

/-- updateTableSize (src/main.go:696-730): clamp the width, install the
computed columns and table height, then reproject. -/
def updateTableSize (m : Model) : Option Model :=
  let w := clampWidth m.width
  updateTable
    {m with width := w,
            table := {m.table with columns := layoutColumns w,
                                   height := goMax 10 (m.height - 10)}}

/-- initialModel (src/main.go:903-949): empty records, default 100x30
dimensions, the default columns and table height 15. -/
def initialModel : Model :=
  { table := { columns := [⟨str "ID", 14⟩, ⟨str "NAME", 25⟩, ⟨str "IMAGE", 30⟩,
                           ⟨str "STATUS", 16⟩, ⟨str "PORTS", 25⟩],
               rows := [], cursor := 0, height := 15 },
    containers := [], filter := { value := [], focused := false },
    filtering := false, err := none, width := 100, height := 30,
    statusMsg := [], loading := false }

/-- Update (src/main.go:739-849): the event-driven transition function.
none models a runtime panic (an out-of-range ID slice or a truncate panic). -/
def update (m : Model) (msg : Msg) : Option (Model × Cmd) :=
  match msg with
  | .windowSize w h =>
    (updateTableSize {m with width := w, height := h}).map fun m' => (m', Cmd.nothing)
  | .key k =>
    if m.filtering then
      if k = str "ctrl+c" then some (m, Cmd.quit)
      else if k = str "esc" then
        some ({m with filtering := false, filter := {m.filter with focused := false}},
              Cmd.nothing)
      else if k = str "enter" then
        (updateTable
            {m with filtering := false,
                    filter := {m.filter with focused := false}}).map
          fun m' => (m', Cmd.nothing)
      else
        (updateTable {m with filter := filterInputStep m.filter k}).map
          fun m' => (m', Cmd.nothing)
    else
      if k = str "ctrl+c" ∨ k = str "q" then some (m, Cmd.quit)
      else if k = str "/" then
        some ({m with filtering := true, filter := {m.filter with focused := true}},
              Cmd.focus)
      else if k = str "r" then
        some ({m with statusMsg := str "Refreshing containers...", loading := true},
              Cmd.load)
      else if k = str "s" then
        match getSelectedContainer m with
        | none => some (m, Cmd.nothing)
        | some c =>
          if c.state = str "running" then
            some ({m with statusMsg := str "Container is already running"}, Cmd.nothing)
          else
            (idPrefix12 c.id).map fun id12 =>
              ({m with statusMsg := str "Starting container " ++ id12 ++ str "...",
                       loading := true},
               Cmd.batch2 (Cmd.start c.id) (Cmd.tickThenLoad 2))
      else if k = str "x" then
        match getSelectedContainer m with
        | none => some (m, Cmd.nothing)
        | some c =>
          if c.state ≠ str "running" then
            some ({m with statusMsg := str "Container is not running"}, Cmd.nothing)
          else
            (idPrefix12 c.id).map fun id12 =>
              ({m with statusMsg := str "Stopping container " ++ id12 ++ str "...",
                       loading := true},
               Cmd.batch2 (Cmd.stop c.id) (Cmd.tickThenLoad 2))
      else if k = str "d" then
        match getSelectedContainer m with
        | none => some (m, Cmd.nothing)
        | some c =>
          (idPrefix12 c.id).map fun id12 =>
            ({m with statusMsg := str "Deleting container " ++ id12 ++ str "...",
                     loading := true},
             Cmd.batch2 (Cmd.delete c.id) (Cmd.tickThenLoad 2))
      else some ({m with table := tableStep m.table k}, Cmd.nothing)
  | .containersLoaded cs =>
    (updateTable {m with containers := cs}).map fun m' =>
      (if (Model.statusMsg m') = str "Refreshing containers..." then
        ({m' with loading := false, statusMsg := []}, Cmd.nothing)
      else ({m' with loading := false}, Cmd.nothing))
  | .actionResult _ message =>
    some ({m with loading := false, statusMsg := message}, Cmd.nothing)
  | .errMsg e => some ({m with err := some e, loading := false}, Cmd.quit)

/-- The success path of loadContainers (src/main.go:480-502): split the
trimmed output on newlines, skip empty lines, keep the lines the per-line
decoder accepts, in order. The decoder (stdlib json.Unmarshal) is an
external collaborator and is a parameter. -/
def parseLines (decode : Str → Option Container) : List Str → List Container
  | [] => []
  | l :: ls =>
    if l = [] then parseLines decode ls
    else
      match decode l with
      | none => parseLines decode ls
      | some c => c :: parseLines decode ls

/-- loadContainers' parsing of the raw docker ps output. -/
def parseContainers (decode : Str → Option Container) (output : Str) : List Container :=
  parseLines decode (splitNl (trimSpace output))

/-- The success message of startContainer (src/main.go:504-513): slices the
ID to 12 characters, so it panics (none) on a shorter ID. -/
def startResultMessage (containerID : Str) : Option Str :=
  (idPrefix12 containerID).map fun p =>
    str "Container " ++ p ++ str " started successfully"

/-- The success message of stopContainer (src/main.go:515-524). -/
def stopResultMessage (containerID : Str) : Option Str :=
  (idPrefix12 containerID).map fun p =>
    str "Container " ++ p ++ str " stopped successfully"

/-- The success message of deleteContainer (src/main.go:526-540). -/
def deleteResultMessage (containerID : Str) : Option Str :=
  (idPrefix12 containerID).map fun p =>
    str "Container " ++ p ++ str " deleted successfully"

/-- Small example record used by concrete witnesses. -/
def exNginx : Container :=
  { id := str "abc123def456", image := str "nginx:latest", command := str "nginx",
    created := str "2024-01-01", status := str "Up 5 minutes",
    ports := str "0.0.0.0:80->80/tcp", names := str "/web", state := str "running" }

/-- A record whose stripped ports text has 30 characters (for the C3
counterexample at a 30-wide ports column). -/
def exWide : Container :=
  { id := str "abc123def456", image := str "nginx:latest", command := str "nginx",
    created := str "2024-01-01", status := str "Up 5 minutes",
    ports := str "aaaaaaaaaaaaaaaaaaaaaaaaaaaaaa",
    names := str "/web", state := str "running" }

/-- The record a concrete example decoder accepts. -/
def exParsed : Container :=
  { id := str "0123456789abcdef", image := [], command := [], created := [],
    status := [], ports := [], names := [], state := [] }

/-- A concrete example per-line decoder: accepts exactly the line "good". -/
def exDecode (l : Str) : Option Container :=
  if l = str "good" then some exParsed else none

/-- An exited record whose ID has fewer than 12 characters. -/
def shortExited : Container :=
  { id := str "abc", image := str "img", command := [], created := [],
    status := [], ports := [], names := str "/short", state := str "exited" }

/-- A running record whose ID has fewer than 12 characters. -/
def shortRunning : Container :=
  { id := str "xyz", image := str "img", command := [], created := [],
    status := [], ports := [], names := str "/short2", state := str "running" }

/-- The model reached from the initial model by one containersLoaded message
carrying the given records. -/
def afterLoad (cs : List Container) : Model :=
  ((update initialModel (Msg.containersLoaded cs)).map Prod.fst).getD initialModel

/-- The initial model mid-refresh: the refreshing status shown and loading
set, as the r key leaves it. -/
def mRefreshing : Model :=
  {initialModel with statusMsg := str "Refreshing containers...", loading := true}

/-- A model holding one selected running container. -/
def mRun : Model := {initialModel with containers := [exNginx]}

/-- An exited record with a full-length ID. -/
def exStopped : Container :=
  {exNginx with state := str "exited", names := str "/web2", id := str "fedcba987654"}

/-- A model holding one selected exited container with a full-length ID. -/
def mStopped : Model := {initialModel with containers := [exStopped]}

/-- goMax is the mathematical max. -/
lemma goMax_eq (a b : Int) : goMax a b = max a b := by
  unfold goMax; split_ifs with h <;> omega

/-- When the bound is at least 3, truncate never panics and yields truncSpec. -/
lemma truncate_of_three (s : Str) (n : Int) (h : 3 ≤ n) :
    truncate s n = some (truncSpec s n) := by
  unfold truncate truncSpec
  by_cases h1 : (s.length : Int) ≤ n
  · rw [if_pos h1, if_pos h1]
  · rw [if_neg h1, if_neg h1, if_pos h]

/-- Whatever truncate returns is truncSpec of its arguments. -/
lemma truncate_eq_some (s t : Str) (n : Int) (h : truncate s n = some t) :
    t = truncSpec s n := by
  unfold truncate at h
  unfold truncSpec
  by_cases h1 : (s.length : Int) ≤ n
  · rw [if_pos h1] at h; rw [if_pos h1]; exact (Option.some.inj h).symm
  · rw [if_neg h1] at h; rw [if_neg h1]
    by_cases h2 : 3 ≤ n
    · rw [if_pos h2] at h; exact (Option.some.inj h).symm
    · rw [if_neg h2] at h; cases h

/-- A truncated-because-too-long string has exactly the requested length. -/
lemma length_truncSpec_of_lt (s : Str) (n : Int) (h3 : 3 ≤ n)
    (h : n < (s.length : Int)) : ((truncSpec s n).length : Int) = n := by
  unfold truncSpec
  rw [if_neg (by omega)]
  have hdots : (str "...").length = 3 := rfl
  rw [List.length_append, List.length_take, hdots]
  push_cast
  omega

/-- C4 (amended): truncate returns s unchanged when len(s) ≤ n; when
len(s) > n it returns a string of exactly n characters ending in "..."
provided n ≥ 3; when len(s) > n and n < 3 the Go slice s[:n-3] is out of
range and the code panics instead of returning (see the counterexample). -/
theorem truncate_claim (s : Str) (n : Int) :
    ((s.length : Int) ≤ n → truncate s n = some s) ∧
    (n < (s.length : Int) → 3 ≤ n →
      ∃ t, truncate s n = some t ∧ (t.length : Int) = n ∧ str "..." <:+ t) ∧
    (n < (s.length : Int) → n < 3 → truncate s n = none) := by
  refine ⟨fun h => by unfold truncate; rw [if_pos h], fun h h3 => ?_, fun h h3 => ?_⟩
  · refine ⟨truncSpec s n, truncate_of_three s n h3, length_truncSpec_of_lt s n h3 h, ?_⟩
    unfold truncSpec
    rw [if_neg (by omega)]
    exact List.suffix_append _ _
  · unfold truncate
    rw [if_neg (by omega), if_neg (by omega)]

/-- Witness for C4's theorem at s = "abcdefgh", n = 6. -/
theorem truncate_claim_witness :
    ∃ t, truncate (str "abcdefgh") 6 = some t ∧ (t.length : Int) = 6 ∧
      str "..." <:+ t :=
  (truncate_claim (str "abcdefgh") 6).2.1 (by decide) (by decide)

/-- C4 counterexample: at s = "hello", n = 2 the claim promises a 2-character
result ending in "...", but the code evaluates the slice s[:2-3] = s[:-1],
which is out of range: a runtime panic (none), not a returned string. -/
theorem truncate_claim_cex : truncate (str "hello") 2 = none := by decide

/-- C5: formatStatus is total over state strings: the seven recognized states
map to their fixed labels, and every other state maps to its upper-cased
form. -/
theorem formatStatus_claim :
    formatStatus (str "running") = str "RUNNING" ∧
    formatStatus (str "exited") = str "STOPPED" ∧
    formatStatus (str "paused") = str "PAUSED" ∧
    formatStatus (str "restarting") = str "RESTART" ∧
    formatStatus (str "removing") = str "REMOVING" ∧
    formatStatus (str "dead") = str "DEAD" ∧
    formatStatus (str "created") = str "CREATED" ∧
    ∀ s, s ∉ [str "running", str "exited", str "paused", str "restarting",
              str "removing", str "dead", str "created"] →
      formatStatus s = toUpperStr s := by
  refine ⟨by decide, by decide, by decide, by decide, by decide, by decide, by decide, ?_⟩
  intro s hs
  simp only [List.mem_cons, List.not_mem_nil, or_false, not_or] at hs
  obtain ⟨h1, h2, h3, h4, h5, h6, h7⟩ := hs
  unfold formatStatus
  rw [if_neg h1, if_neg h2, if_neg h3, if_neg h4, if_neg h5, if_neg h6, if_neg h7]

/-- Witness for C5's theorem at the unrecognized state "unknown". -/
theorem formatStatus_claim_witness :
    formatStatus (str "unknown") = toUpperStr (str "unknown") :=
  formatStatus_claim.2.2.2.2.2.2.2 (str "unknown") (by decide)

/-- The append-accumulator loop of filterContainers is List.filter. -/
lemma foldl_filter_eq (f : Str) (l : List Container) (acc : List Container) :
    l.foldl (fun acc c => if matchesFilter c f then acc ++ [c] else acc) acc
      = acc ++ l.filter (fun c => matchesFilter c f) := by
  induction l generalizing acc with
  | nil => simp
  | cons c t ih =>
    cases hc : matchesFilter c f
    · simp only [List.foldl_cons, List.filter_cons, hc, Bool.false_eq_true,
                 if_false, ite_false]
      rw [ih]
    · simp only [List.foldl_cons, List.filter_cons, hc, if_true, ite_true]
      rw [ih]
      simp

/-- A nonempty filter is List.filter with the matchesFilter predicate. -/
lemma filterContainers_eq_filter (R : List Container) (F : Str) (hF : F ≠ []) :
    filterContainers R F = R.filter (fun c => matchesFilter c (toLowerStr F)) := by
  unfold filterContainers
  rw [if_neg hF, foldl_filter_eq, List.nil_append]

/-- C2: filterContainers is an order-preserving subsequence of its input; the
empty filter is the identity; a nonempty filter keeps exactly the records one
of whose fields (name with the leading "/" stripped, image, state, id,
ports), lower-cased, contains the lower-cased filter text as a substring. -/
theorem filterContainers_claim (R : List Container) (F : Str) :
    (filterContainers R F).Sublist R ∧
    (F = [] → filterContainers R F = R) ∧
    (F ≠ [] → ∀ c, c ∈ filterContainers R F ↔ c ∈ R ∧
      (strContains (toLowerStr (trimPrefixGo c.names (str "/"))) (toLowerStr F) ||
       strContains (toLowerStr c.image) (toLowerStr F) ||
       strContains (toLowerStr c.state) (toLowerStr F) ||
       strContains (toLowerStr c.id) (toLowerStr F) ||
       strContains (toLowerStr c.ports) (toLowerStr F)) = true) := by
  refine ⟨?_, fun h => by unfold filterContainers; rw [if_pos h], fun hF c => ?_⟩
  · by_cases hF : F = []
    · unfold filterContainers; rw [if_pos hF]
    · rw [filterContainers_eq_filter R F hF]
      exact List.filter_sublist R
  · rw [filterContainers_eq_filter R F hF, List.mem_filter]
    exact Iff.rfl

/-- Witness for C2's theorem: the spec's own example, record {nginx:latest,
/web, running} retained by the case-insensitive filter text "NGINX". -/
theorem filterContainers_claim_witness :
    exNginx ∈ filterContainers [exNginx] (str "NGINX") :=
  ((filterContainers_claim [exNginx] (str "NGINX")).2.2 (by decide) exNginx).mpr
    ⟨by decide, by decide⟩

/-- C1 counterexample: at terminal width 80 the computed column widths are
14, 20, 25, 16, 20, which sum to 95; 95 + 10 = 105 exceeds the width 80, so
the claim's reconstruction bound fails at width 80 (it fails for every width
from 80 to 106). -/
theorem layout_claim_cex :
    ¬ (idWidth + nameWidth 80 + imageWidth 80 + statusWidth + portsWidth 80 + 10 ≤ 80) := by
  decide

/-- C1 (amended): the name/image/ports column widths meet their minimums
20/25/20 for every terminal width ≥ 80, and the five column widths plus the
fixed 10-unit reserve fit within the terminal width for every width ≥ 107
(the bound as claimed fails for widths 80..106, see the counterexample). -/
theorem layout_claim (w : Int) :
    (80 ≤ w → 20 ≤ nameWidth w ∧ 25 ≤ imageWidth w ∧ 20 ≤ portsWidth w) ∧
    (107 ≤ w →
      idWidth + nameWidth w + imageWidth w + statusWidth + portsWidth w + 10 ≤ w) := by
  simp only [nameWidth, imageWidth, portsWidth, remainingWidth, clampWidth,
             idWidth, statusWidth, goMax_eq]
  constructor <;> intro h <;> rw [if_neg (by omega : ¬ w < 80)] <;> omega

/-- Witness for C1's theorem at terminal width 120. -/
theorem layout_claim_witness :
    (20 ≤ nameWidth 120 ∧ 25 ≤ imageWidth 120 ∧ 20 ≤ portsWidth 120) ∧
    idWidth + nameWidth 120 + imageWidth 120 + statusWidth + portsWidth 120 + 10 ≤ 120 :=
  ⟨(layout_claim 120).1 (by decide), (layout_claim 120).2 (by decide)⟩

/-- truncSpec is the identity on strings within the bound. -/
lemma truncSpec_of_le (s : Str) (n : Int) (h : (s.length : Int) ≤ n) :
    truncSpec s n = s := by
  unfold truncSpec; rw [if_pos h]

/-- truncSpec shortens a string beyond the bound. -/
lemma truncSpec_of_lt (s : Str) (n : Int) (h : n < (s.length : Int)) :
    truncSpec s n = s.take (n - 3).toNat ++ str "..." := by
  unfold truncSpec; rw [if_neg (by omega)]

/-- Whenever truncate succeeds, either the string fit or the bound was ≥ 3. -/
lemma truncate_some_cases (s t : Str) (n : Int) (h : truncate s n = some t) :
    (s.length : Int) ≤ n ∨ 3 ≤ n := by
  unfold truncate at h
  by_cases h1 : (s.length : Int) ≤ n
  · exact Or.inl h1
  · rw [if_neg h1] at h
    by_cases h2 : 3 ≤ n
    · exact Or.inr h2
    · rw [if_neg h2] at h; cases h

/-- Truncating twice truncates to the smaller bound. -/
lemma truncSpec_truncSpec (s : Str) (a b : Int) (ha : 3 ≤ a) (hb : 3 ≤ b) :
    truncSpec (truncSpec s a) b = truncSpec s (min a b) := by
  by_cases hsa : (s.length : Int) ≤ a
  · rw [truncSpec_of_le s a hsa]
    by_cases hsb : (s.length : Int) ≤ b
    · rw [truncSpec_of_le s b hsb, truncSpec_of_le s _ (le_min hsa hsb)]
    · push_neg at hsb
      rw [truncSpec_of_lt s b hsb, truncSpec_of_lt s (min a b) (by omega)]
      have hmn : (min a b - 3).toNat = (b - 3).toNat := by omega
      rw [hmn]
  · push_neg at hsa
    rw [truncSpec_of_lt s a hsa]
    have hxlen : ((s.take (a - 3).toNat ++ str "...").length : Int) = a := by
      have hdots : (str "...").length = 3 := rfl
      rw [List.length_append, List.length_take, hdots]
      push_cast
      omega
    by_cases hab : a ≤ b
    · rw [truncSpec_of_le _ b (by omega), min_eq_left hab, truncSpec_of_lt s a hsa]
    · push_neg at hab
      rw [truncSpec_of_lt _ b (by omega), min_eq_right (le_of_lt hab),
          truncSpec_of_lt s b (by omega)]
      congr 1
      rw [List.take_append_of_le_length (by rw [List.length_take]; omega),
          List.take_take]
      congr 1
      omega

/-- formatPorts never panics: the dash for empty ports, else the stripped
ports truncated to 25. -/
lemma formatPorts_eq_some (ports : Str) :
    formatPorts ports = some (if ports = [] then dash
      else truncSpec (replaceAll ports (str "0.0.0.0:") []) 25) := by
  unfold formatPorts
  by_cases h : ports = []
  · rw [if_pos h, if_pos h]
  · rw [if_neg h, if_neg h]
    exact truncate_of_three _ 25 (by omega)

/-- The ports cell of a successfully projected row, for either branch of
containerToRow, with w4 the width the fifth cell is truncated to. -/
lemma portsCell_aux (w0 w1 w2 w4 : Int) (c : Container) (row : List Str)
    (h : ((truncate c.id w0).bind fun t0 =>
          (truncate (trimPrefixGo c.names (str "/")) w1).bind fun t1 =>
          (truncate c.image w2).bind fun t2 =>
          (formatPorts c.ports).bind fun p =>
          (truncate p w4).map fun t4 =>
          [t0, t1, t2, formatStatus c.state, t4]) = some row) :
    row.get? 4 = some (if c.ports = [] then dash
      else truncSpec (replaceAll c.ports (str "0.0.0.0:") []) (min 25 w4)) := by
  obtain ⟨t0, h0, h⟩ := Option.bind_eq_some.mp h
  obtain ⟨t1, h1, h⟩ := Option.bind_eq_some.mp h
  obtain ⟨t2, h2, h⟩ := Option.bind_eq_some.mp h
  obtain ⟨p, hp, h⟩ := Option.bind_eq_some.mp h
  obtain ⟨t4, h4, hrow⟩ := Option.map_eq_some'.mp h
  subst hrow
  show some t4 = _
  rw [formatPorts_eq_some] at hp
  by_cases hpe : c.ports = []
  · rw [if_pos hpe]
    rw [if_pos hpe] at hp
    have hpd : p = dash := (Option.some.inj hp).symm
    subst hpd
    have hw : (1 : Int) ≤ w4 := by
      rcases truncate_some_cases _ _ _ h4 with hle | h3
      · simpa using hle
      · omega
    rw [truncate_eq_some _ _ _ h4, truncSpec_of_le _ _ (by simpa using hw)]
  · rw [if_neg hpe]
    rw [if_neg hpe] at hp
    have hpeq : p = truncSpec (replaceAll c.ports (str "0.0.0.0:") []) 25 :=
      (Option.some.inj hp).symm
    rcases le_or_lt 3 w4 with h3 | h3
    · rw [truncate_eq_some _ _ _ h4, hpeq,
          truncSpec_truncSpec _ 25 w4 (by omega) h3]
    · rcases truncate_some_cases _ _ _ h4 with hle | h3x
      swap
      · omega
      have ht4 : t4 = p := by
        rw [truncate_eq_some _ _ _ h4, truncSpec_of_le _ _ hle]
      by_cases hs25 : ((replaceAll c.ports (str "0.0.0.0:") []).length : Int) ≤ 25
      · have hps : p = replaceAll c.ports (str "0.0.0.0:") [] := by
          rw [hpeq, truncSpec_of_le _ 25 hs25]
        rw [ht4, hps, truncSpec_of_le]
        rw [hps] at hle
        omega
      · push_neg at hs25
        have hl25 : (p.length : Int) = 25 := by
          rw [hpeq]
          exact length_truncSpec_of_lt _ 25 (by omega) hs25
        omega

/-- C3 (amended): whenever projection succeeds, the ports cell is the dash
placeholder when the raw ports string is empty, and otherwise the raw ports
string with every "0.0.0.0:" occurrence removed, truncated to the minimum of
25 and the ports column width (25 in the fallback layout): the inner
truncation to 25 inside formatPorts caps the cell even when the column is
wider (see the counterexample). -/
theorem portsCell_claim (cols : List Column) (c : Container) (row : List Str)
    (h : containerToRow cols c = some row) :
    row.get? 4 = some (if c.ports = [] then dash
      else truncSpec (replaceAll c.ports (str "0.0.0.0:") [])
             (min 25 (portsColWidth cols))) := by
  rcases cols with _ | ⟨c0, _ | ⟨c1, _ | ⟨c2, _ | ⟨c3, _ | ⟨c4, rest⟩⟩⟩⟩⟩ <;>
    simp only [containerToRow] at h
  · simpa [portsColWidth] using portsCell_aux 14 25 30 25 c row h
  · simpa [portsColWidth] using portsCell_aux 14 25 30 25 c row h
  · simpa [portsColWidth] using portsCell_aux 14 25 30 25 c row h
  · simpa [portsColWidth] using portsCell_aux 14 25 30 25 c row h
  · simpa [portsColWidth] using portsCell_aux 14 25 30 25 c row h
  · simpa [portsColWidth]
      using portsCell_aux c0.width c1.width c2.width c4.width c row h

/-- Witness for C3's theorem: a record with ports "0.0.0.0:80->80/tcp"
projected through the initial 25-wide ports column. -/
theorem portsCell_claim_witness :
    [str "abc123def456", str "web", str "nginx:latest", str "RUNNING",
     str "80->80/tcp"].get? 4
      = some (if exNginx.ports = [] then dash
          else truncSpec (replaceAll exNginx.ports (str "0.0.0.0:") [])
                 (min 25 (portsColWidth initialModel.table.columns))) :=
  portsCell_claim initialModel.table.columns exNginx _ (by decide)

/-- C3 counterexample: with the layout computed for terminal width 130 the
ports column is 30 wide, and the record's stripped ports text has exactly 30
characters, so the claim predicts a cell keeping all 30 characters; the code
first truncates to 25 inside formatPorts, so the projected cell is the
25-character truncation instead. -/
theorem portsCell_claim_cex :
    (containerToRow (layoutColumns 130) exWide).isSome = true ∧
    (containerToRow (layoutColumns 130) exWide).map (fun r => r.get? 4) ≠
      some (some (truncSpec (replaceAll exWide.ports (str "0.0.0.0:") [])
                    (portsColWidth (layoutColumns 130)))) := by
  exact ⟨by decide, by decide⟩

/-- parseLines keeps, in order, exactly what the decoder accepts among the
nonempty lines. -/
lemma parseLines_eq (decode : Str → Option Container) (ls : List Str) :
    parseLines decode ls = (ls.filter (fun l => !l.isEmpty)).filterMap decode := by
  induction ls with
  | nil => rfl
  | cons l t ih =>
    cases l with
    | nil => simp [parseLines, ih]
    | cons a as =>
      simp only [parseLines, if_neg (by simp : ¬ (a :: as : Str) = [])]
      rw [List.filter_cons, if_pos (by simp), List.filterMap_cons]
      cases hd : decode (a :: as)
      · simp only [hd, ih]
      · simp only [hd, ih]

/-- C6: the parser trims outer whitespace, splits on newlines, skips empty
lines, decodes each remaining line and silently drops the lines the decoder
rejects, returning the accepted records in source order; in particular an
input whose trimmed text splits into two undecodable lines and one decodable
line yields exactly that one record. -/
theorem parseContainers_claim (decode : Str → Option Container) :
    (∀ output, parseContainers decode output
        = ((splitNl (trimSpace output)).filter (fun l => !l.isEmpty)).filterMap decode) ∧
    (∀ output l1 l2 l3 c, splitNl (trimSpace output) = [l1, l2, l3] →
      l1 ≠ [] → l2 ≠ [] → l3 ≠ [] →
      decode l1 = none → decode l2 = none → decode l3 = some c →
      parseContainers decode output = [c]) := by
  constructor
  · intro output
    unfold parseContainers
    rw [parseLines_eq]
  · intro output l1 l2 l3 c hsplit h1 h2 h3 hd1 hd2 hd3
    unfold parseContainers
    rw [hsplit]
    simp [parseLines, h1, h2, h3, hd1, hd2, hd3]

/-- Witness for C6's theorem: raw output with outer whitespace, two
undecodable lines and the one line exDecode accepts. -/
theorem parseContainers_claim_witness :
    parseContainers exDecode (str "  bad1\nbad2\ngood\n  ") = [exParsed] :=
  (parseContainers_claim exDecode).2 (str "  bad1\nbad2\ngood\n  ")
    (str "bad1") (str "bad2") (str "good") exParsed
    (by decide) (by decide) (by decide) (by decide) (by decide) (by decide) (by decide)

/-- truncate at the fallback ID width 14 never panics. -/
lemma truncate14 (s : Str) : truncate s 14 = some (truncSpec s 14) :=
  truncate_of_three s 14 (by omega)

/-- truncate at the fallback name/ports width 25 never panics. -/
lemma truncate25 (s : Str) : truncate s 25 = some (truncSpec s 25) :=
  truncate_of_three s 25 (by omega)

/-- truncate at the fallback image width 30 never panics. -/
lemma truncate30 (s : Str) : truncate s 30 = some (truncSpec s 30) :=
  truncate_of_three s 30 (by omega)

/-- Projection of one record succeeds whenever every column is ≥ 3 wide. -/
lemma containerToRow_isSome (cols : List Column) (c : Container)
    (h : ∀ col ∈ cols, 3 ≤ col.width) :
    (containerToRow cols c).isSome = true := by
  rcases cols with _ | ⟨c0, _ | ⟨c1, _ | ⟨c2, _ | ⟨c3, _ | ⟨c4, rest⟩⟩⟩⟩⟩
  · simp only [containerToRow, truncate14, truncate25, truncate30,
               formatPorts_eq_some, Option.some_bind, Option.map_some', Option.isSome_some]
  · simp only [containerToRow, truncate14, truncate25, truncate30,
               formatPorts_eq_some, Option.some_bind, Option.map_some', Option.isSome_some]
  · simp only [containerToRow, truncate14, truncate25, truncate30,
               formatPorts_eq_some, Option.some_bind, Option.map_some', Option.isSome_some]
  · simp only [containerToRow, truncate14, truncate25, truncate30,
               formatPorts_eq_some, Option.some_bind, Option.map_some', Option.isSome_some]
  · simp only [containerToRow, truncate14, truncate25, truncate30,
               formatPorts_eq_some, Option.some_bind, Option.map_some', Option.isSome_some]
  · have h0 := h c0 (by simp)
    have h1 := h c1 (by simp)
    have h2 := h c2 (by simp)
    have h4 := h c4 (by simp [List.mem_cons])
    simp only [containerToRow, truncate_of_three _ _ h0, truncate_of_three _ _ h1,
               truncate_of_three _ _ h2, truncate_of_three _ _ h4,
               formatPorts_eq_some, Option.some_bind, Option.map_some', Option.isSome_some]

/-- mapM over Option succeeds when every element does. -/
lemma mapM_isSome {α β : Type} (f : α → Option β) (l : List α)
    (h : ∀ a ∈ l, (f a).isSome = true) : (l.mapM f).isSome = true := by
  induction l with
  | nil => rfl
  | cons a t ih =>
    obtain ⟨b, hb⟩ := Option.isSome_iff_exists.mp (h a (by simp))
    obtain ⟨bs, hbs⟩ :=
      Option.isSome_iff_exists.mp (ih (fun x hx => h x (by simp [hx])))
    rw [List.mapM_cons, hb, hbs]
    rfl

/-- The shape of a successful updateTable: only the rows change, to the
projection of the filtered records. -/
lemma updateTable_eq_some (m m' : Model) (h : updateTable m = some m') :
    ∃ rows, (filterContainers m.containers m.filter.value).mapM
        (containerToRow m.table.columns) = some rows ∧
      m' = {m with table := {m.table with rows := rows}} := by
  simp only [updateTable, Option.map_eq_some'] at h
  obtain ⟨rows, h1, h2⟩ := h
  exact ⟨rows, h1, h2.symm⟩

/-- updateTable never changes the stored error. -/
lemma updateTable_err (m m' : Model) (h : updateTable m = some m') :
    m'.err = m.err := by
  obtain ⟨rows, _, h2⟩ := updateTable_eq_some m m' h
  rw [h2]

/-- updateTableSize never changes the stored error. -/
lemma updateTableSize_err (m m' : Model) (h : updateTableSize m = some m') :
    m'.err = m.err := by
  simp only [updateTableSize] at h
  have h2 := updateTable_err _ _ h
  exact h2

/-- C8: on a containersLoaded message the update replaces the records,
reprojects the rows from the new records and the current filter text, clears
the loading flag, clears the status message exactly when it was the
refreshing placeholder, leaves every other field unchanged and dispatches no
command; the step succeeds whenever every configured column is at least 3
characters wide (the program only ever configures widths ≥ 14). -/
theorem containersLoaded_claim (m : Model) (cs : List Container) :
    ((∀ col ∈ m.table.columns, 3 ≤ col.width) →
      (update m (Msg.containersLoaded cs)).isSome = true) ∧
    (∀ m' cmd, update m (Msg.containersLoaded cs) = some (m', cmd) →
      cmd = Cmd.nothing ∧ m'.containers = cs ∧
      (filterContainers cs m.filter.value).mapM (containerToRow m.table.columns)
        = some m'.table.rows ∧
      m'.loading = false ∧
      m'.statusMsg = (if m.statusMsg = str "Refreshing containers..." then []
                      else m.statusMsg) ∧
      m'.filtering = m.filtering ∧ m'.err = m.err ∧ m'.width = m.width ∧
      m'.height = m.height ∧ m'.filter = m.filter ∧
      m'.table.columns = m.table.columns ∧ m'.table.cursor = m.table.cursor ∧
      m'.table.height = m.table.height) := by
  constructor
  · intro hw
    have hsome : ((filterContainers cs m.filter.value).mapM
        (containerToRow m.table.columns)).isSome = true :=
      mapM_isSome _ _ (fun c _ => containerToRow_isSome _ c hw)
    obtain ⟨rows, hrows⟩ := Option.isSome_iff_exists.mp hsome
    simp only [update, updateTable]
    rw [hrows]
    rfl
  · intro m' cmd h
    simp only [update] at h
    rw [Option.map_eq_some'] at h
    obtain ⟨m0, hm0, hpair⟩ := h
    obtain ⟨rows, hrows, hm0eq⟩ := updateTable_eq_some _ _ hm0
    subst hm0eq
    by_cases hst : m.statusMsg = str "Refreshing containers..."
    · rw [if_pos hst] at hpair
      simp only [Prod.mk.injEq] at hpair
      obtain ⟨h1, h2⟩ := hpair
      subst h1
      subst h2
      refine ⟨rfl, rfl, hrows, rfl, ?_, rfl, rfl, rfl, rfl, rfl, rfl, rfl, rfl⟩
      rw [if_pos hst]
    · rw [if_neg hst] at hpair
      simp only [Prod.mk.injEq] at hpair
      obtain ⟨h1, h2⟩ := hpair
      subst h1
      subst h2
      refine ⟨rfl, rfl, hrows, rfl, ?_, rfl, rfl, rfl, rfl, rfl, rfl, rfl, rfl⟩
      rw [if_neg hst]

/-- Witness for C8's theorem: loading an empty record list into the
mid-refresh initial model lands exactly on the initial model. -/
theorem containersLoaded_claim_witness :
    (update mRefreshing (Msg.containersLoaded [])).isSome = true ∧
    initialModel.loading = false ∧
    initialModel.statusMsg
      = (if mRefreshing.statusMsg = str "Refreshing containers..." then []
         else mRefreshing.statusMsg) := by
  refine ⟨(containersLoaded_claim mRefreshing []).1 ?_, ?_, ?_⟩
  · intro col hcol
    fin_cases hcol <;> decide
  · exact ((containersLoaded_claim mRefreshing []).2 initialModel Cmd.nothing
      (by decide)).2.2.2.1
  · exact ((containersLoaded_claim mRefreshing []).2 initialModel Cmd.nothing
      (by decide)).2.2.2.2.1

/-- C7 (amended): pressing s in browsing mode on a selected running container
sets the "Container is already running" status, leaves loading (and every
other field) unchanged and dispatches no command; on a selected non-running
container whose ID has at least 12 characters it sets the Starting status
with the 12-character ID prefix, sets loading, and dispatches the start
command batched with the 2-second delayed refresh. For a selected non-running
container with an ID shorter than 12 characters the code panics on the slice
ID[:12] instead (see the counterexample). -/
theorem startKey_claim (m : Model) (c : Container)
    (hb : m.filtering = false) (hsel : getSelectedContainer m = some c) :
    (c.state = str "running" →
      update m (Msg.key (str "s")) =
        some ({m with statusMsg := str "Container is already running"}, Cmd.nothing)) ∧
    (c.state ≠ str "running" → 12 ≤ c.id.length →
      update m (Msg.key (str "s")) =
        some ({m with statusMsg := str "Starting container " ++ c.id.take 12 ++ str "...",
                      loading := true},
              Cmd.batch2 (Cmd.start c.id) (Cmd.tickThenLoad 2))) := by
  constructor
  · intro hrun
    simp only [update, hb, Bool.false_eq_true, if_false, hsel]
    rw [if_pos trivial, if_pos hrun,
        if_neg (by decide : ¬ (str "s" = str "ctrl+c" ∨ str "s" = str "q")),
        if_neg (by decide : ¬ (str "s" = str "/")),
        if_neg (by decide : ¬ (str "s" = str "r"))]
  · intro hrun h12
    simp only [update, hb, Bool.false_eq_true, if_false, hsel]
    rw [if_pos trivial, if_neg hrun,
        if_neg (by decide : ¬ (str "s" = str "ctrl+c" ∨ str "s" = str "q")),
        if_neg (by decide : ¬ (str "s" = str "/")),
        if_neg (by decide : ¬ (str "s" = str "r"))]
    unfold idPrefix12
    rw [if_pos h12]
    rfl

/-- Witness for C7's theorem: both branches, on one-record models with
full-length IDs. -/
theorem startKey_claim_witness :
    update mRun (Msg.key (str "s")) =
      some ({mRun with statusMsg := str "Container is already running"}, Cmd.nothing) ∧
    update mStopped (Msg.key (str "s")) =
      some ({mStopped with
               statusMsg := str "Starting container " ++ exStopped.id.take 12 ++ str "...",
               loading := true},
            Cmd.batch2 (Cmd.start exStopped.id) (Cmd.tickThenLoad 2)) :=
  ⟨(startKey_claim mRun exNginx (by decide) (by decide)).1 (by decide),
   (startKey_claim mStopped exStopped (by decide) (by decide)).2 (by decide) (by decide)⟩

/-- C7 counterexample: in the reachable state holding one exited container
whose ID is the 3-character "abc" (reached from the initial model by a
containersLoaded message), pressing s panics on the slice ID[:12] (none)
instead of setting the Starting status and dispatching the start command. -/
theorem startKey_claim_cex :
    (update initialModel (Msg.containersLoaded [shortExited])).isSome = true ∧
    getSelectedContainer (afterLoad [shortExited]) = some shortExited ∧
    shortExited.state ≠ str "running" ∧
    update (afterLoad [shortExited]) (Msg.key (str "s")) = none := by
  exact ⟨by decide, by decide, by decide, by decide⟩

/-- C9: handling an error message stores the error, clears the loading flag
and dispatches quit; moreover no update step changes the stored error except
with the quit command, so once err is set the program ends with no further
transition (the runtime executes quit by ending the program). -/
theorem errMsg_claim (m : Model) (e : Str) :
    update m (Msg.errMsg e)
      = some ({m with err := some e, loading := false}, Cmd.quit) ∧
    (∀ msg m' cmd, update m msg = some (m', cmd) → m'.err = m.err ∨ cmd = Cmd.quit) := by
  refine ⟨rfl, ?_⟩
  intro msg m' cmd h
  cases msg with
  | windowSize w hgt =>
    simp only [update] at h
    rw [Option.map_eq_some'] at h
    obtain ⟨m0, hm0, hpair⟩ := h
    simp only [Prod.mk.injEq] at hpair
    obtain ⟨h1, h2⟩ := hpair
    subst h1
    left
    have h3 := updateTableSize_err _ _ hm0
    exact h3
  | key k =>
    by_cases hf : m.filtering
    · simp only [update, hf, if_true] at h
      split_ifs at h with hk1 hk2 hk3
      · simp only [Option.some.injEq, Prod.mk.injEq] at h
        obtain ⟨h1, h2⟩ := h
        subst h1
        left
        rfl
      · simp only [Option.some.injEq, Prod.mk.injEq] at h
        obtain ⟨h1, h2⟩ := h
        subst h1
        left
        rfl
      · rw [Option.map_eq_some'] at h
        obtain ⟨m0, hm0, hpair⟩ := h
        simp only [Prod.mk.injEq] at hpair
        obtain ⟨h1, h2⟩ := hpair
        subst h1
        left
        have h3 := updateTable_err _ _ hm0
        exact h3
      · rw [Option.map_eq_some'] at h
        obtain ⟨m0, hm0, hpair⟩ := h
        simp only [Prod.mk.injEq] at hpair
        obtain ⟨h1, h2⟩ := hpair
        subst h1
        left
        have h3 := updateTable_err _ _ hm0
        exact h3
    · simp only [update, hf, Bool.false_eq_true, if_false] at h
      split_ifs at h with hq hsl hr hs hx hd
      · simp only [Option.some.injEq, Prod.mk.injEq] at h
        obtain ⟨h1, h2⟩ := h
        right
        exact h2.symm
      · simp only [Option.some.injEq, Prod.mk.injEq] at h
        obtain ⟨h1, h2⟩ := h
        subst h1
        left
        rfl
      · simp only [Option.some.injEq, Prod.mk.injEq] at h
        obtain ⟨h1, h2⟩ := h
        subst h1
        left
        rfl
      · rcases hsel : getSelectedContainer m with _ | c
        · simp only [hsel, Option.some.injEq, Prod.mk.injEq] at h
          obtain ⟨h1, h2⟩ := h
          subst h1
          left
          rfl
        · simp only [hsel] at h
          split_ifs at h with hrun
          · simp only [Option.some.injEq, Prod.mk.injEq] at h
            obtain ⟨h1, h2⟩ := h
            subst h1
            left
            rfl
          · rw [Option.map_eq_some'] at h
            obtain ⟨id12, hid, hpair⟩ := h
            simp only [Prod.mk.injEq] at hpair
            obtain ⟨h1, h2⟩ := hpair
            subst h1
            left
            rfl
      · rcases hsel : getSelectedContainer m with _ | c
        · simp only [hsel, Option.some.injEq, Prod.mk.injEq] at h
          obtain ⟨h1, h2⟩ := h
          subst h1
          left
          rfl
        · simp only [hsel] at h
          split_ifs at h with hrun
          · simp only [Option.some.injEq, Prod.mk.injEq] at h
            obtain ⟨h1, h2⟩ := h
            subst h1
            left
            rfl
          · rw [Option.map_eq_some'] at h
            obtain ⟨id12, hid, hpair⟩ := h
            simp only [Prod.mk.injEq] at hpair
            obtain ⟨h1, h2⟩ := hpair
            subst h1
            left
            rfl
      · rcases hsel : getSelectedContainer m with _ | c
        · simp only [hsel, Option.some.injEq, Prod.mk.injEq] at h
          obtain ⟨h1, h2⟩ := h
          subst h1
          left
          rfl
        · simp only [hsel] at h
          rw [Option.map_eq_some'] at h
          obtain ⟨id12, hid, hpair⟩ := h
          simp only [Prod.mk.injEq] at hpair
          obtain ⟨h1, h2⟩ := hpair
          subst h1
          left
          rfl
      · simp only [Option.some.injEq, Prod.mk.injEq] at h
        obtain ⟨h1, h2⟩ := h
        subst h1
        left
        rfl
  | containersLoaded cs =>
    simp only [update] at h
    rw [Option.map_eq_some'] at h
    obtain ⟨m0, hm0, hpair⟩ := h
    have h3 := updateTable_err _ _ hm0
    split_ifs at hpair
    · simp only [Prod.mk.injEq] at hpair
      obtain ⟨h1, h2⟩ := hpair
      subst h1
      left
      exact h3
    · simp only [Prod.mk.injEq] at hpair
      obtain ⟨h1, h2⟩ := hpair
      subst h1
      left
      exact h3
  | actionResult ok message =>
    simp only [update, Option.some.injEq, Prod.mk.injEq] at h
    obtain ⟨h1, h2⟩ := h
    subst h1
    left
    rfl
  | errMsg e2 =>
    simp only [update, Option.some.injEq, Prod.mk.injEq] at h
    obtain ⟨h1, h2⟩ := h
    right
    exact h2.symm

/-- Witness for C9's theorem: the error message "boom" at the initial model. -/
theorem errMsg_claim_witness :
    update initialModel (Msg.errMsg (str "boom"))
      = some ({initialModel with err := some (str "boom"), loading := false}, Cmd.quit) ∧
    (({initialModel with err := some (str "boom"), loading := false}).err
        = initialModel.err ∨ Cmd.quit = Cmd.quit) :=
  ⟨(errMsg_claim initialModel (str "boom")).1,
   (errMsg_claim initialModel (str "boom")).2 (Msg.errMsg (str "boom")) _ _ (by decide)⟩

/-- C10: the ID[:12] slices in the s/x/d key handlers and in the
start/stop/delete result messages are unguarded: from the initial model,
loading one record whose ID is shorter than 12 characters produces a
reachable state in which pressing s or d (exited record) panics, pressing x
panics on a running record, and the three result-message formatters panic on
the same short IDs; so the update function is total on these events only
when every record's ID has at least 12 characters. -/
theorem shortId_claim :
    (update initialModel (Msg.containersLoaded [shortExited])).isSome = true ∧
    update (afterLoad [shortExited]) (Msg.key (str "s")) = none ∧
    update (afterLoad [shortExited]) (Msg.key (str "d")) = none ∧
    (update initialModel (Msg.containersLoaded [shortRunning])).isSome = true ∧
    update (afterLoad [shortRunning]) (Msg.key (str "x")) = none ∧
    startResultMessage shortExited.id = none ∧
    stopResultMessage shortRunning.id = none ∧
    deleteResultMessage shortExited.id = none := by
  exact ⟨by decide, by decide, by decide, by decide, by decide, by decide,
         by decide, by decide⟩
